import Mathlib

/-!
Verification of `mongoose-safe-query` (`src/safeQuery.ts`, `src/types.ts`).

The development is a shallow embedding of the plugin's pure core:

* filter expressions and `SafeQuery.getRootQueryFields` (field extraction);
* `SafeQuery.getNonExistingFields` (field-existence check);
* `SafeQuery.isCoveredByIndex` (index-coverage evaluation, with JavaScript
  division semantics: `0 / 0` is `NaN` and every `NaN` comparison is false,
  `k / 0` is `+Infinity` for `k > 0`; finite division is modelled exactly
  over `ℚ`);
* the throttle digest `SafeQuery.hash(fields).slice(-5)` (the SHA-1/base64
  step is the Node `crypto` collaborator, modelled as an arbitrary function
  `String → String` passed explicitly);
* `SafeQuery.getMetadata` (memoizing metadata cache; the mongoose schema is
  the collaborator supplying `tree` keys and `schema.indexes()`);
* `SafeQuery.checkField` / `SafeQuery.checkIndex` (the violation policy
  engine).  The user-supplied `warnAction` callback returns `void`; its
  presence is a flag and its invocation is the observable `warned` outcome.
  `next(error)` is the observable `threw` outcome.
-/

/-- JavaScript `s.split('.')[0]`: the portion of a key before the first `.`
(the whole string when there is no dot). -/
def fieldRoot (s : String) : String :=
  ⟨s.data.takeWhile (fun c => c ≠ '.')⟩

/-- Adding an element to a JavaScript `Set` (insertion order, no duplicate). -/
def addField (acc : List String) (x : String) : List String :=
  if x ∈ acc then acc else acc ++ [x]

/-- `l.forEach(f => set.add(f))`. -/
def addAll (acc : List String) (l : List String) : List String :=
  l.foldl addField acc

/-- `const SUPPORTED_QUERY_SELECTORS = ['$and', '$nor', '$or']`. -/
def SUPPORTED_QUERY_SELECTORS : List String := ["$and", "$nor", "$or"]

/-- `export const FIELDS_TO_IGNORE = ['_bsontype']`. -/
def FIELDS_TO_IGNORE : List String := ["_bsontype"]

mutual
/-- The value sitting under one key of a mongoose filter object: either an
array of sub-filters or any non-array value (opaque for field extraction). -/
inductive FilterValue : Type where
  | scalar : FilterValue
  | arr : FilterList → FilterValue
/-- A mongoose `FilterQuery` object as a key/value entry list, in the
enumeration order of `Object.entries`. -/
inductive FilterQuery : Type where
  | nil : FilterQuery
  | entry : String → FilterValue → FilterQuery → FilterQuery
/-- An array of sub-filters (the value of `$and` / `$nor` / `$or`). -/
inductive FilterList : Type where
  | nil : FilterList
  | cons : FilterQuery → FilterList → FilterList
end

mutual
/-- The `for (const [fieldOrOperator, expression] of Object.entries(...))`
loop of `SafeQuery.getRootQueryFields`, threading the result set. -/
def grfEntries : FilterQuery → List String → List String
  | .nil, acc => acc
  | .entry k v rest, acc => grfEntries rest (grfEntry k v acc)
/-- One iteration of the loop body of `SafeQuery.getRootQueryFields`. -/
def grfEntry : String → FilterValue → List String → List String
  | k, v, acc =>
    if k ∈ FIELDS_TO_IGNORE then acc
    else
      match v with
      | .arr subs =>
        if k ∈ SUPPORTED_QUERY_SELECTORS then grfSubs subs acc
        else if k.startsWith "$" then acc
        else addField acc (fieldRoot k)
      | .scalar =>
        if k.startsWith "$" then acc
        else addField acc (fieldRoot k)
/-- `for (const subConditions of expression) { getRootQueryFields(subConditions).forEach(f => queryFields.add(f)); }`. -/
def grfSubs : FilterList → List String → List String
  | .nil, acc => acc
  | .cons f rest, acc => grfSubs rest (addAll acc (grfEntries f []))
end

/-- `SafeQuery.getRootQueryFields` (src/safeQuery.ts:235-254). -/
def getRootQueryFields (queryConditions : FilterQuery) : List String :=
  grfEntries queryConditions []

mutual
/-- Specification-side field extraction, written from the spec's words: the
multiset of top-level field names reachable by recursively un-nesting the
supported combinators; ignore-list keys and operator keys outside the
combinator set contribute nothing; a plain key contributes the portion of
its path before the first `.`. -/
def specFields : FilterQuery → List String
  | .nil => []
  | .entry k v rest => specEntry k v ++ specFields rest
/-- Specification-side contribution of a single filter entry. -/
def specEntry : String → FilterValue → List String
  | k, v =>
    if k ∈ FIELDS_TO_IGNORE then []
    else
      match v with
      | .arr subs =>
        if k ∈ SUPPORTED_QUERY_SELECTORS then specSubs subs
        else if k.startsWith "$" then []
        else [fieldRoot k]
      | .scalar =>
        if k.startsWith "$" then []
        else [fieldRoot k]
/-- Specification-side union over the sub-filters of a combinator. -/
def specSubs : FilterList → List String
  | .nil => []
  | .cons f rest => specFields f ++ specSubs rest
end

/-- `SafeQuery.getNonExistingFields` (src/safeQuery.ts:259-261). -/
def getNonExistingFields (queryFields : List String) (modelFields : List String) :
    List String :=
  queryFields.filter (fun f => decide (f ∉ modelFields))

/-- The inner loop of `SafeQuery.isCoveredByIndex`: walk the index fields in
order, count while the root of each field is in the query field set, stop at
the first miss (`break`). -/
def coveredCountFn (queryFieldSet : List String) : List String → Nat
  | [] => 0
  | f :: rest =>
    if fieldRoot f ∈ queryFieldSet then coveredCountFn queryFieldSet rest + 1
    else 0

/-- JavaScript `covered / total >= minCoverage` on numbers: `0 / 0` is `NaN`
and compares false, `k / 0` is `+Infinity` for `k > 0` and compares true
against any (finite) `minCoverage`; otherwise exact rational comparison. -/
def jsDivGe (covered total : Nat) (minCoverage : ℚ) : Bool :=
  if total = 0 then
    if covered = 0 then false else true
  else decide ((covered : ℚ) / (total : ℚ) ≥ minCoverage)

/-- `SafeQuery.isCoveredByIndex` (src/safeQuery.ts:263-285): return true at
the first index whose covered-prefix ratio reaches `minCoverage`. -/
def isCoveredByIndex (queryFields : List String) (indices : List (List String))
    (minCoverage : ℚ) : Bool :=
  indices.any (fun index =>
    jsDivGe (coveredCountFn queryFields index) queryFields.length minCoverage)

/-- Specification-side covered count: the length of the longest contiguous
leading prefix of the index whose field roots all lie in the query field
set. -/
def specCoveredCount (queryFields : List String) (index : List String) : Nat :=
  (index.takeWhile (fun f => decide (fieldRoot f ∈ queryFields))).length

/-- lodash `_.sortBy(queryFields)`: stable ascending sort by identity. -/
def sortFields (l : List String) : List String :=
  l.insertionSort (fun a b => a ≤ b)

/-- `SafeQuery.hash` (src/safeQuery.ts:287-290): join the sorted fields and
apply the Node `crypto` SHA-1/base64 pipeline, which is the collaborator
`hashFn`. -/
def hashQueryFields (hashFn : String → String) (queryFields : List String) :
    String :=
  hashFn (String.join (sortFields queryFields))

/-- JavaScript `s.slice(-5)`: the last five characters (the whole string when
it is shorter). -/
def jsSliceLast5 (s : String) : String :=
  ⟨s.data.drop (s.data.length - 5)⟩

/-- The throttle digest recorded in the warned-query sets:
`SafeQuery.hash(queryFields).slice(-5)`. -/
def throttleDigest (hashFn : String → String) (queryFields : List String) :
    String :=
  jsSliceLast5 (hashQueryFields hashFn queryFields)

/-- `ViolatingQuery` (src/types.ts:11-16). -/
structure ViolatingQuery : Type where
  modelName : String
  violatingFields : List String
  comment : Option String
  fullQuery : FilterQuery

/-- The two error classes `InvalidField` and `LowIndexCoverage`
(src/types.ts:18-22), each carrying its message. -/
inductive SafeQueryError : Type where
  | invalidField : String → SafeQueryError
  | lowIndexCoverage : String → SafeQueryError

/-- The observable effect of one check invocation: nothing, one invocation of
the configured `warnAction` callback, or one `next(error)` call. -/
inductive CheckOutcome : Type where
  | ok : CheckOutcome
  | warned : ViolatingQuery → CheckOutcome
  | threw : SafeQueryError → CheckOutcome

/-- Whether an outcome is a signalled failure. -/
def CheckOutcome.isThrew : CheckOutcome → Bool
  | .threw _ => true
  | _ => false

/-- `FieldCheckHandler` (src/types.ts:32): an optional `warnAction` callback
(presence flag; the callback body is an external side effect) and an optional
`throwMessage` callback. -/
structure FieldCheckHandler : Type where
  warnAction : Bool
  throwMessage : Option (ViolatingQuery → String)

/-- `IndexCheckHandler` (src/types.ts:35-38). -/
structure IndexCheckHandler : Type where
  warnAction : Bool
  throwMessage : Option (ViolatingQuery → String)
  minCoverage : ℚ

/-- `FullSafeQueryOptions` (src/types.ts:40-45); the `shouldWarn` and
`shouldThrow` zero-argument predicates are modelled by the boolean they
return for the invocation at hand. -/
structure FullSafeQueryOptions : Type where
  shouldWarn : Bool
  shouldThrow : Bool
  checkField : FieldCheckHandler
  checkIndex : IndexCheckHandler

/-- `DEFAULT_OPTIONS` (src/types.ts:61-71): always warn, never throw, both
default console `warnAction`s configured, no `throwMessage`, `minCoverage`
0.5. -/
def DEFAULT_OPTIONS : FullSafeQueryOptions where
  shouldWarn := true
  shouldThrow := false
  checkField := { warnAction := true, throwMessage := none }
  checkIndex := { warnAction := true, throwMessage := none, minCoverage := 1 / 2 }

/-- `ModelMetadata` (src/types.ts:5-9); the JavaScript `Set` of fields is a
membership list. -/
structure ModelMetadata : Type where
  modelName : String
  fields : List String
  indices : List (List String)

/-- The mongoose model collaborator read by `getMetadata`: its name, the keys
of `schema.tree`, and `schema.indexes()` mapped to `Object.keys(a[0])`. -/
structure MongooseModel : Type where
  modelName : String
  treeKeys : List String
  schemaIndexes : List (List String)

/-- `Map.get` on the metadata map, modelled as first-match lookup in an
association list. -/
def lookupName (n : String) : List (String × ModelMetadata) → Option ModelMetadata
  | [] => none
  | (k, md) :: rest => if k = n then some md else lookupName n rest

/-- `SafeQuery.getMetadata` (src/safeQuery.ts:54-70): return the cached entry
when present; otherwise build the metadata from the schema collaborator,
append the implicit `['_id']` index, store it and return it. -/
def getMetadata (model : MongooseModel) (cache : List (String × ModelMetadata)) :
    ModelMetadata × List (String × ModelMetadata) :=
  match lookupName model.modelName cache with
  | some existingMetadata => (existingMetadata, cache)
  | none =>
    let newMetadata : ModelMetadata :=
      { modelName := model.modelName
        fields := model.treeKeys
        indices := model.schemaIndexes ++ [["_id"]] }
    (newMetadata, cache ++ [(model.modelName, newMetadata)])

/-- The mutable state of one `SafeQuery` instance (src/safeQuery.ts:42-45)
that the two checks read and write: the two throttle sets (JavaScript string
`Set`s in insertion order) and the options. -/
structure SafeQueryState : Type where
  warnedFieldQueries : List String
  warnedIndexQueries : List String
  options : FullSafeQueryOptions

/-- `new SafeQuery()` (src/safeQuery.ts:47-52) with no options: empty throttle
sets and `_.defaultsDeep({}, DEFAULT_OPTIONS, DEFAULT_OPTIONS) = DEFAULT_OPTIONS`. -/
def newSafeQuery : SafeQueryState where
  warnedFieldQueries := []
  warnedIndexQueries := []
  options := DEFAULT_OPTIONS

/-- `SafeQuery.clearWarnedFieldQueries` (src/safeQuery.ts:108-111). -/
def clearWarnedFieldQueries (st : SafeQueryState) : SafeQueryState :=
  { st with warnedFieldQueries := [] }

/-- `SafeQuery.clearWarnedIndexQueries` (src/safeQuery.ts:113-116). -/
def clearWarnedIndexQueries (st : SafeQueryState) : SafeQueryState :=
  { st with warnedIndexQueries := [] }

/-- `SafeQuery.setThrowCondition` (src/safeQuery.ts:89-96) with a constant
boolean. -/
def setThrowCondition (st : SafeQueryState) (b : Bool) : SafeQueryState :=
  { st with options := { st.options with shouldThrow := b } }

/-- `SafeQuery.checkField` (src/safeQuery.ts:168-198).  `hashFn` is the Node
`crypto` SHA-1/base64 collaborator. -/
def checkField (hashFn : String → String) (meta : ModelMetadata)
    (queryConditions : FilterQuery) (queryFields : List String)
    (comment : Option String) (st : SafeQueryState) :
    CheckOutcome × SafeQueryState :=
  let violatingFields := getNonExistingFields queryFields meta.fields
  if violatingFields = [] then (.ok, st)
  else
    let violatingQuery : ViolatingQuery :=
      { modelName := meta.modelName
        violatingFields := violatingFields
        comment := comment
        fullQuery := queryConditions }
    match st.options.shouldThrow, st.options.checkField.throwMessage with
    | true, some tm => (.threw (.invalidField (tm violatingQuery)), st)
    | _, _ =>
      if st.options.shouldWarn && st.options.checkField.warnAction then
        let digest := jsSliceLast5 (hashQueryFields hashFn queryFields)
        if digest ∈ st.warnedFieldQueries then (.ok, st)
        else (.warned violatingQuery,
              { st with warnedFieldQueries := st.warnedFieldQueries ++ [digest] })
      else (.ok, st)

/-- `SafeQuery.checkIndex` (src/safeQuery.ts:200-233). -/
def checkIndex (hashFn : String → String) (meta : ModelMetadata)
    (queryConditions : FilterQuery) (queryFields : List String)
    (comment : Option String) (st : SafeQueryState) :
    CheckOutcome × SafeQueryState :=
  if meta.indices.length = 0 ∨ queryFields.length = 0 then (.ok, st)
  else
    let minCoverage := max st.options.checkIndex.minCoverage 0
    if isCoveredByIndex queryFields meta.indices minCoverage then (.ok, st)
    else
      let violatingQuery : ViolatingQuery :=
        { modelName := meta.modelName
          violatingFields := queryFields
          comment := comment
          fullQuery := queryConditions }
      match st.options.shouldThrow, st.options.checkIndex.throwMessage with
      | true, some tm => (.threw (.lowIndexCoverage (tm violatingQuery)), st)
      | _, _ =>
        if st.options.shouldWarn && st.options.checkIndex.warnAction then
          let digest := jsSliceLast5 (hashQueryFields hashFn queryFields)
          if digest ∈ st.warnedIndexQueries then (.ok, st)
          else (.warned violatingQuery,
                { st with warnedIndexQueries := st.warnedIndexQueries ++ [digest] })
        else (.ok, st)

theorem mem_addField (acc : List String) (x y : String) :
    y ∈ addField acc x ↔ y ∈ acc ∨ y = x := by
  unfold addField
  split
  · next h => exact ⟨Or.inl, fun hy => hy.elim id (fun e => e ▸ h)⟩
  · simp

theorem nodup_addField (acc : List String) (x : String) (h : acc.Nodup) :
    (addField acc x).Nodup := by
  unfold addField
  split
  · exact h
  · next hx => simp [List.nodup_append, h, hx]

theorem mem_addAll (l acc : List String) (y : String) :
    y ∈ addAll acc l ↔ y ∈ acc ∨ y ∈ l := by
  induction l generalizing acc with
  | nil => simp [addAll]
  | cons a t ih =>
    show y ∈ addAll (addField acc a) t ↔ _
    rw [ih, mem_addField]
    simp
    tauto

theorem nodup_addAll (l acc : List String) (h : acc.Nodup) :
    (addAll acc l).Nodup := by
  induction l generalizing acc with
  | nil => exact h
  | cons a t ih => exact ih (addField acc a) (nodup_addField acc a h)

mutual
theorem grfEntries_mem : ∀ (f : FilterQuery) (acc : List String) (y : String),
    y ∈ grfEntries f acc ↔ y ∈ acc ∨ y ∈ specFields f
  | .nil, acc, y => by simp [grfEntries, specFields]
  | .entry k v rest, acc, y => by
    simp only [grfEntries, specFields]
    rw [grfEntries_mem rest (grfEntry k v acc) y, grfEntry_mem k v acc y]
    simp only [List.mem_append]
    tauto

theorem grfEntry_mem : ∀ (k : String) (v : FilterValue) (acc : List String)
    (y : String), y ∈ grfEntry k v acc ↔ y ∈ acc ∨ y ∈ specEntry k v
  | k, .scalar, acc, y => by
    simp only [grfEntry, specEntry]
    by_cases h1 : k ∈ FIELDS_TO_IGNORE <;> by_cases h2 : k.startsWith "$" <;>
      simp [h1, h2, mem_addField]
  | k, .arr subs, acc, y => by
    simp only [grfEntry, specEntry]
    by_cases h1 : k ∈ FIELDS_TO_IGNORE
    · simp [h1]
    · by_cases h2 : k ∈ SUPPORTED_QUERY_SELECTORS
      · simpa [h1, h2] using grfSubs_mem subs acc y
      · by_cases h3 : k.startsWith "$" <;> simp [h1, h2, h3, mem_addField]

theorem grfSubs_mem : ∀ (s : FilterList) (acc : List String) (y : String),
    y ∈ grfSubs s acc ↔ y ∈ acc ∨ y ∈ specSubs s
  | .nil, acc, y => by simp [grfSubs, specSubs]
  | .cons f rest, acc, y => by
    simp only [grfSubs, specSubs]
    rw [grfSubs_mem rest (addAll acc (grfEntries f [])) y, mem_addAll,
      grfEntries_mem f [] y]
    simp only [List.mem_append, List.not_mem_nil, false_or]
    tauto
end

mutual
theorem grfEntries_nodup : ∀ (f : FilterQuery) (acc : List String),
    acc.Nodup → (grfEntries f acc).Nodup
  | .nil, _, h => h
  | .entry k v rest, acc, h =>
    grfEntries_nodup rest (grfEntry k v acc) (grfEntry_nodup k v acc h)

theorem grfEntry_nodup : ∀ (k : String) (v : FilterValue) (acc : List String),
    acc.Nodup → (grfEntry k v acc).Nodup
  | k, .scalar, acc, h => by
    simp only [grfEntry]
    by_cases h1 : k ∈ FIELDS_TO_IGNORE <;> by_cases h2 : k.startsWith "$" <;>
      simp [h1, h2, h, nodup_addField]
  | k, .arr subs, acc, h => by
    simp only [grfEntry]
    by_cases h1 : k ∈ FIELDS_TO_IGNORE
    · simp [h1, h]
    · by_cases h2 : k ∈ SUPPORTED_QUERY_SELECTORS
      · simpa [h1, h2] using grfSubs_nodup subs acc h
      · by_cases h3 : k.startsWith "$" <;> simp [h1, h2, h3, h, nodup_addField]

theorem grfSubs_nodup : ∀ (s : FilterList) (acc : List String),
    acc.Nodup → (grfSubs s acc).Nodup
  | .nil, _, h => h
  | .cons f rest, acc, h =>
    grfSubs_nodup rest (addAll acc (grfEntries f []))
      (nodup_addAll (grfEntries f []) acc h)
end

/-- C1: for every filter built from plain (possibly dotted) field keys,
ignore-list keys, unsupported operator keys and the supported boolean
combinators carrying sequences of sub-filters, `getRootQueryFields` returns a
duplicate-free list whose members are exactly the top-level field names
reachable by recursively un-nesting `$and` / `$nor` / `$or`: dotted paths
contribute their first segment, ignore-list keys and operator keys outside
the combinator set contribute nothing. -/
theorem getRootQueryFields_extraction_correct :
    ∀ f : FilterQuery, (getRootQueryFields f).Nodup ∧
      ∀ y : String, (y ∈ getRootQueryFields f ↔ y ∈ specFields f) :=
  fun f =>
    ⟨grfEntries_nodup f [] List.nodup_nil,
     fun y => by simpa using grfEntries_mem f [] y⟩

theorem coveredCountFn_eq_spec (queryFields : List String) (index : List String) :
    coveredCountFn queryFields index = specCoveredCount queryFields index := by
  induction index with
  | nil => rfl
  | cons f rest ih =>
    by_cases h : fieldRoot f ∈ queryFields
    · simp [coveredCountFn, specCoveredCount, List.takeWhile_cons, h]
      simp_all [specCoveredCount]
    · simp [coveredCountFn, specCoveredCount, List.takeWhile_cons, h]

/-- C2: for a non-empty `queryFields`, `isCoveredByIndex` returns true exactly
when some index in the list reaches the threshold under prefix semantics: the
covered count of an index is the length of its longest contiguous leading
prefix whose field roots lie in the query field set, and the index satisfies
the threshold when that count divided by the length of `queryFields` is at
least `minCoverage`. -/
theorem isCoveredByIndex_iff_prefix_threshold (queryFields : List String)
    (indices : List (List String)) (minCoverage : ℚ) (h : queryFields ≠ []) :
    isCoveredByIndex queryFields indices minCoverage = true ↔
      ∃ index ∈ indices,
        ((specCoveredCount queryFields index : ℚ) / (queryFields.length : ℚ) ≥
          minCoverage) := by
  have hl : ¬ queryFields.length = 0 := by simpa using h
  simp only [isCoveredByIndex, List.any_eq_true, jsDivGe, hl, if_false,
    coveredCountFn_eq_spec, decide_eq_true_eq]

theorem isCoveredByIndex_iff_prefix_threshold_witness :
    (["a"] : List String) ≠ [] ∧
      (isCoveredByIndex ["a"] [["a"]] 1 = true ↔
        ∃ index ∈ [["a"]],
          ((specCoveredCount ["a"] index : ℚ) /
            ((["a"] : List String).length : ℚ) ≥ 1)) :=
  ⟨by decide, isCoveredByIndex_iff_prefix_threshold ["a"] [["a"]] 1 (by decide)⟩

theorem coveredCountFn_nil (index : List String) : coveredCountFn [] index = 0 := by
  cases index <;> simp [coveredCountFn]

/-- C5 counterexample: at the concrete input `queryFields = []`,
`indices = [['_id']]`, `minCoverage = 0`, the code returns `false`, not the
vacuous `true` the claim states. -/
theorem isCoveredByIndex_empty_cex :
    ¬ (isCoveredByIndex [] [["_id"]] 0 = true) := by decide

/-- C5 amended: for an empty `queryFields` sequence, `isCoveredByIndex`
returns `false` for every index list and every `minCoverage`: the covered
count is 0, `0 / 0` is `NaN` in JavaScript, and a `NaN` comparison is always
false, so no index can satisfy the threshold. -/
theorem isCoveredByIndex_empty_false (indices : List (List String))
    (minCoverage : ℚ) : isCoveredByIndex [] indices minCoverage = false := by
  simp only [isCoveredByIndex, List.any_eq_false, coveredCountFn_nil]
  intro idx _
  simp [jsDivGe]

/-- C6 counterexample: appending a duplicate query field can change the
result: `["a"]` is covered by the index `["a"]` at `minCoverage = 1.0`, but
`["a", "a"]` is not, because the duplicate inflates the total field count to
2 while the covered count stays 1. -/
theorem isCoveredByIndex_dup_cex :
    isCoveredByIndex ["a"] [["a"]] 1 = true ∧
      isCoveredByIndex ["a", "a"] [["a"]] 1 = false := by
  have h1 : coveredCountFn ["a"] ["a"] = 1 := by decide
  have h2 : coveredCountFn ["a", "a"] ["a"] = 1 := by decide
  constructor
  · simp [isCoveredByIndex, h1, jsDivGe]
  · simp [isCoveredByIndex, h2, jsDivGe]
    norm_num

/-- C6 amended: duplicates can change the result of `isCoveredByIndex` in
general (the total counts duplicates while the membership set does not), but
the claim's concrete instance holds:
`isCovered(["customer","customer"], [["customer.name","customer.id"]], 1.0)`
returns true, since both index fields have root `customer`, giving covered
count 2 over total 2. -/
theorem isCoveredByIndex_dup_customer :
    isCoveredByIndex ["customer", "customer"]
      [["customer.name", "customer.id"]] 1 = true := by
  have h1 : coveredCountFn ["customer", "customer"]
      ["customer.name", "customer.id"] = 2 := by decide
  simp [isCoveredByIndex, h1, jsDivGe]

theorem sortFields_perm_eq (l₁ l₂ : List String) (h : l₁.Perm l₂) :
    sortFields l₁ = sortFields l₂ :=
  List.eq_of_perm_of_sorted
    ((List.perm_insertionSort _ l₁).trans
      (h.trans (List.perm_insertionSort _ l₂).symm))
    (List.sorted_insertionSort _ l₁) (List.sorted_insertionSort _ l₂)

theorem throttleDigest_perm (hashFn : String → String) (l₁ l₂ : List String)
    (h : l₁.Perm l₂) :
    throttleDigest hashFn l₁ = throttleDigest hashFn l₂ := by
  unfold throttleDigest hashQueryFields
  rw [sortFields_perm_eq l₁ l₂ h]

theorem checkField_warn_char (hashFn : String → String) (meta : ModelMetadata)
    (conds : FilterQuery) (qf : List String) (c : Option String)
    (st : SafeQueryState)
    (hwarn : st.options.shouldWarn = true)
    (haction : st.options.checkField.warnAction = true)
    (hnothrow : st.options.shouldThrow = false ∨
      st.options.checkField.throwMessage = none)
    (hviol : getNonExistingFields qf meta.fields ≠ []) :
    checkField hashFn meta conds qf c st =
      if throttleDigest hashFn qf ∈ st.warnedFieldQueries then (.ok, st)
      else
        (.warned ⟨meta.modelName, getNonExistingFields qf meta.fields, c, conds⟩,
         { st with warnedFieldQueries :=
            st.warnedFieldQueries ++ [throttleDigest hashFn qf] }) := by
  simp only [checkField, if_neg hviol, throttleDigest]
  rcases hnothrow with h | h
  · rw [h]
    cases htm : st.options.checkField.throwMessage <;>
      simp [hwarn, haction]
  · rw [h]
    cases hst : st.options.shouldThrow <;>
      simp [hwarn, haction]

theorem checkIndex_warn_char (hashFn : String → String) (meta : ModelMetadata)
    (conds : FilterQuery) (qf : List String) (c : Option String)
    (st : SafeQueryState)
    (hwarn : st.options.shouldWarn = true)
    (haction : st.options.checkIndex.warnAction = true)
    (hnothrow : st.options.shouldThrow = false ∨
      st.options.checkIndex.throwMessage = none)
    (hguard : ¬ (meta.indices.length = 0 ∨ qf.length = 0))
    (hviol : isCoveredByIndex qf meta.indices
      (max st.options.checkIndex.minCoverage 0) = false) :
    checkIndex hashFn meta conds qf c st =
      if throttleDigest hashFn qf ∈ st.warnedIndexQueries then (.ok, st)
      else
        (.warned ⟨meta.modelName, qf, c, conds⟩,
         { st with warnedIndexQueries :=
            st.warnedIndexQueries ++ [throttleDigest hashFn qf] }) := by
  simp only [checkIndex, if_neg hguard, hviol, Bool.false_eq_true, if_false,
    throttleDigest]
  rcases hnothrow with h | h
  · rw [h]
    cases htm : st.options.checkIndex.throwMessage <;>
      simp [hwarn, haction]
  · rw [h]
    cases hst : st.options.shouldThrow <;>
      simp [hwarn, haction]

theorem checkField_throw_char (hashFn : String → String) (meta : ModelMetadata)
    (conds : FilterQuery) (qf : List String) (c : Option String)
    (st : SafeQueryState) (tm : ViolatingQuery → String)
    (hthrow : st.options.shouldThrow = true)
    (htm : st.options.checkField.throwMessage = some tm)
    (hviol : getNonExistingFields qf meta.fields ≠ []) :
    checkField hashFn meta conds qf c st =
      (.threw (.invalidField
        (tm ⟨meta.modelName, getNonExistingFields qf meta.fields, c, conds⟩)), st) := by
  simp only [checkField, if_neg hviol]
  rw [hthrow, htm]

theorem checkIndex_throw_char (hashFn : String → String) (meta : ModelMetadata)
    (conds : FilterQuery) (qf : List String) (c : Option String)
    (st : SafeQueryState) (tm : ViolatingQuery → String)
    (hthrow : st.options.shouldThrow = true)
    (htm : st.options.checkIndex.throwMessage = some tm)
    (hguard : ¬ (meta.indices.length = 0 ∨ qf.length = 0))
    (hviol : isCoveredByIndex qf meta.indices
      (max st.options.checkIndex.minCoverage 0) = false) :
    checkIndex hashFn meta conds qf c st =
      (.threw (.lowIndexCoverage (tm ⟨meta.modelName, qf, c, conds⟩)), st) := by
  simp only [checkIndex, if_neg hguard, hviol, Bool.false_eq_true, if_false]
  rw [hthrow, htm]

theorem checkField_fallthrough (hashFn : String → String) (meta : ModelMetadata)
    (conds : FilterQuery) (qf : List String) (c : Option String)
    (st : SafeQueryState)
    (htm : st.options.checkField.throwMessage = none) :
    (checkField hashFn meta conds qf c st).1.isThrew = false
    ∧ (checkField hashFn meta conds qf c st).1 =
        (checkField hashFn meta conds qf c (setThrowCondition st false)).1
    ∧ (checkField hashFn meta conds qf c st).2.warnedFieldQueries =
        (checkField hashFn meta conds qf c (setThrowCondition st false)).2.warnedFieldQueries := by
  by_cases hv : getNonExistingFields qf meta.fields = []
  · simp [checkField, hv, setThrowCondition, CheckOutcome.isThrew]
  · simp only [checkField, if_neg hv, setThrowCondition, htm]
    cases hst : st.options.shouldThrow <;>
      · by_cases hw : (st.options.shouldWarn && st.options.checkField.warnAction) = true
        · simp only [hw, if_true]
          split <;> simp [CheckOutcome.isThrew]
        · simp only [hw]
          simp [CheckOutcome.isThrew]

theorem checkIndex_fallthrough (hashFn : String → String) (meta : ModelMetadata)
    (conds : FilterQuery) (qf : List String) (c : Option String)
    (st : SafeQueryState)
    (htm : st.options.checkIndex.throwMessage = none) :
    (checkIndex hashFn meta conds qf c st).1.isThrew = false
    ∧ (checkIndex hashFn meta conds qf c st).1 =
        (checkIndex hashFn meta conds qf c (setThrowCondition st false)).1
    ∧ (checkIndex hashFn meta conds qf c st).2.warnedIndexQueries =
        (checkIndex hashFn meta conds qf c (setThrowCondition st false)).2.warnedIndexQueries := by
  by_cases hg : meta.indices.length = 0 ∨ qf.length = 0
  · simp only [checkIndex, if_pos hg, setThrowCondition]
    simp [CheckOutcome.isThrew]
  · by_cases hcov : isCoveredByIndex qf meta.indices
        (max st.options.checkIndex.minCoverage 0) = true
    · simp only [checkIndex, if_neg hg, setThrowCondition, if_pos hcov]
      simp [CheckOutcome.isThrew]
    · rw [Bool.not_eq_true] at hcov
      simp only [checkIndex, if_neg hg, setThrowCondition, htm, hcov,
        Bool.false_eq_true, if_false]
      cases hst : st.options.shouldThrow <;>
        · by_cases hw : (st.options.shouldWarn && st.options.checkIndex.warnAction) = true
          · simp only [hw, if_true]
            split <;> simp [CheckOutcome.isThrew]
          · simp only [hw]
            simp [CheckOutcome.isThrew]

/-- C4: on a violating invocation with throwing enabled, a configured
fail-message callback makes the check signal the typed failure carrying that
callback's message with the state unchanged (so the notify callback is not
invoked, even when warning is also enabled); with no fail-message configured
the check never signals a failure and behaves exactly like the warn path
(the same outcome and the same throttle set as with throwing disabled) — no
default failure message is synthesized. -/
theorem throw_priority_over_warn :
    (∀ (hashFn : String → String) (meta : ModelMetadata) (conds : FilterQuery)
      (qf : List String) (c : Option String) (st : SafeQueryState)
      (tm : ViolatingQuery → String),
      st.options.shouldThrow = true →
      st.options.checkField.throwMessage = some tm →
      getNonExistingFields qf meta.fields ≠ [] →
      checkField hashFn meta conds qf c st =
        (.threw (.invalidField
          (tm ⟨meta.modelName, getNonExistingFields qf meta.fields, c, conds⟩)),
         st))
    ∧ (∀ (hashFn : String → String) (meta : ModelMetadata) (conds : FilterQuery)
      (qf : List String) (c : Option String) (st : SafeQueryState)
      (tm : ViolatingQuery → String),
      st.options.shouldThrow = true →
      st.options.checkIndex.throwMessage = some tm →
      ¬ (meta.indices.length = 0 ∨ qf.length = 0) →
      isCoveredByIndex qf meta.indices
        (max st.options.checkIndex.minCoverage 0) = false →
      checkIndex hashFn meta conds qf c st =
        (.threw (.lowIndexCoverage (tm ⟨meta.modelName, qf, c, conds⟩)), st))
    ∧ (∀ (hashFn : String → String) (meta : ModelMetadata) (conds : FilterQuery)
      (qf : List String) (c : Option String) (st : SafeQueryState),
      st.options.shouldThrow = true →
      st.options.checkField.throwMessage = none →
      (checkField hashFn meta conds qf c st).1.isThrew = false
      ∧ (checkField hashFn meta conds qf c st).1 =
          (checkField hashFn meta conds qf c (setThrowCondition st false)).1
      ∧ (checkField hashFn meta conds qf c st).2.warnedFieldQueries =
          (checkField hashFn meta conds qf c (setThrowCondition st false)).2.warnedFieldQueries)
    ∧ (∀ (hashFn : String → String) (meta : ModelMetadata) (conds : FilterQuery)
      (qf : List String) (c : Option String) (st : SafeQueryState),
      st.options.shouldThrow = true →
      st.options.checkIndex.throwMessage = none →
      (checkIndex hashFn meta conds qf c st).1.isThrew = false
      ∧ (checkIndex hashFn meta conds qf c st).1 =
          (checkIndex hashFn meta conds qf c (setThrowCondition st false)).1
      ∧ (checkIndex hashFn meta conds qf c st).2.warnedIndexQueries =
          (checkIndex hashFn meta conds qf c (setThrowCondition st false)).2.warnedIndexQueries) :=
  ⟨fun hashFn meta conds qf c st tm h1 h2 h3 =>
    checkField_throw_char hashFn meta conds qf c st tm h1 h2 h3,
   fun hashFn meta conds qf c st tm h1 h2 h3 h4 =>
    checkIndex_throw_char hashFn meta conds qf c st tm h1 h2 h3 h4,
   fun hashFn meta conds qf c st _ h2 =>
    checkField_fallthrough hashFn meta conds qf c st h2,
   fun hashFn meta conds qf c st _ h2 =>
    checkIndex_fallthrough hashFn meta conds qf c st h2⟩

/-- Field-check example metadata: schema fields `{a}`, so `zz` and `yy` are
violating query fields. -/
def exMetaF : ModelMetadata := ⟨"M", ["a"], []⟩

/-- Index-check example metadata: one index on `a`, so a query on `b` is
uncovered at `minCoverage = 1`. -/
def exMetaI : ModelMetadata := ⟨"M", ["a"], [["a"]]⟩

/-- Example options: warn-only policy (throwing disabled, no fail-message,
both notify callbacks configured, `minCoverage = 1`). -/
def exOptsWarn : FullSafeQueryOptions :=
  ⟨true, false, ⟨true, none⟩, ⟨true, none, 1⟩⟩

/-- Example options: throwing enabled with both fail-message callbacks
configured. -/
def exOptsThrow : FullSafeQueryOptions :=
  ⟨true, true, ⟨true, some (fun _ => "boom")⟩, ⟨true, some (fun _ => "slow"), 1⟩⟩

/-- Example options: throwing enabled but no fail-message callback. -/
def exOptsThrowNone : FullSafeQueryOptions :=
  ⟨true, true, ⟨true, none⟩, ⟨true, none, 1⟩⟩

/-- Example state: warn-only policy with empty throttle sets. -/
def exStWarn : SafeQueryState := ⟨[], [], exOptsWarn⟩

/-- Example state: throwing policy with empty throttle sets. -/
def exStThrow : SafeQueryState := ⟨[], [], exOptsThrow⟩

/-- Example state: throwing enabled, no fail-message, empty throttle sets. -/
def exStThrowNone : SafeQueryState := ⟨[], [], exOptsThrowNone⟩

theorem isCovered_b_a_false :
    isCoveredByIndex ["b"] [["a"]] (max (1 : ℚ) 0) = false := by
  have h : coveredCountFn ["b"] ["a"] = 0 := by decide
  simp [isCoveredByIndex, h, jsDivGe]

theorem isCovered_y_a_false :
    isCoveredByIndex ["y"] [["a"]] (max (1 : ℚ) 0) = false := by
  have h : coveredCountFn ["y"] ["a"] = 0 := by decide
  simp [isCoveredByIndex, h, jsDivGe]

theorem throw_priority_over_warn_witness :
    (checkField (fun s => s) exMetaF .nil ["zz"] none exStThrow =
      (.threw (.invalidField "boom"), exStThrow))
    ∧ (checkIndex (fun s => s) exMetaI .nil ["b"] none exStThrow =
      (.threw (.lowIndexCoverage "slow"), exStThrow))
    ∧ ((checkField (fun s => s) exMetaF .nil ["zz"] none exStThrowNone).1.isThrew = false
      ∧ (checkField (fun s => s) exMetaF .nil ["zz"] none exStThrowNone).1 =
          (checkField (fun s => s) exMetaF .nil ["zz"] none
            (setThrowCondition exStThrowNone false)).1
      ∧ (checkField (fun s => s) exMetaF .nil ["zz"] none exStThrowNone).2.warnedFieldQueries =
          (checkField (fun s => s) exMetaF .nil ["zz"] none
            (setThrowCondition exStThrowNone false)).2.warnedFieldQueries)
    ∧ ((checkIndex (fun s => s) exMetaI .nil ["b"] none exStThrowNone).1.isThrew = false
      ∧ (checkIndex (fun s => s) exMetaI .nil ["b"] none exStThrowNone).1 =
          (checkIndex (fun s => s) exMetaI .nil ["b"] none
            (setThrowCondition exStThrowNone false)).1
      ∧ (checkIndex (fun s => s) exMetaI .nil ["b"] none exStThrowNone).2.warnedIndexQueries =
          (checkIndex (fun s => s) exMetaI .nil ["b"] none
            (setThrowCondition exStThrowNone false)).2.warnedIndexQueries) :=
  ⟨throw_priority_over_warn.1 (fun s => s) exMetaF .nil ["zz"] none exStThrow
      (fun _ => "boom") rfl rfl (by decide),
   throw_priority_over_warn.2.1 (fun s => s) exMetaI .nil ["b"] none exStThrow
      (fun _ => "slow") rfl rfl (by decide) isCovered_b_a_false,
   throw_priority_over_warn.2.2.1 (fun s => s) exMetaF .nil ["zz"] none
      exStThrowNone rfl rfl,
   throw_priority_over_warn.2.2.2 (fun s => s) exMetaI .nil ["b"] none
      exStThrowNone rfl rfl⟩

/-- C10: a `SafeQuery` constructed with no options never signals a failure:
the defaults disable throwing and configure no fail-message callback for
either check, while warning stays enabled with both default notify callbacks
configured, so on every query both checks can only take the warn path and
never produce an `InvalidField` or `LowIndexCoverage` failure. -/
theorem default_options_never_throw :
    DEFAULT_OPTIONS.shouldThrow = false
    ∧ DEFAULT_OPTIONS.checkField.throwMessage = none
    ∧ DEFAULT_OPTIONS.checkIndex.throwMessage = none
    ∧ DEFAULT_OPTIONS.shouldWarn = true
    ∧ DEFAULT_OPTIONS.checkField.warnAction = true
    ∧ DEFAULT_OPTIONS.checkIndex.warnAction = true
    ∧ newSafeQuery =
        { warnedFieldQueries := [], warnedIndexQueries := [],
          options := DEFAULT_OPTIONS }
    ∧ ∀ (hashFn : String → String) (meta : ModelMetadata) (conds : FilterQuery)
        (qf : List String) (c : Option String) (wf wi : List String),
        (checkField hashFn meta conds qf c ⟨wf, wi, DEFAULT_OPTIONS⟩).1.isThrew = false
        ∧ (checkIndex hashFn meta conds qf c ⟨wf, wi, DEFAULT_OPTIONS⟩).1.isThrew = false := by
  refine ⟨rfl, rfl, rfl, rfl, rfl, rfl, rfl, ?_⟩
  intro hashFn meta conds qf c wf wi
  exact ⟨(checkField_fallthrough hashFn meta conds qf c ⟨wf, wi, DEFAULT_OPTIONS⟩ rfl).1,
         (checkIndex_fallthrough hashFn meta conds qf c ⟨wf, wi, DEFAULT_OPTIONS⟩ rfl).1⟩

/-- C3: on the warn path (warning enabled, notify callback configured,
throwing not active), a violating query whose digest is fresh notifies
exactly once: the first invocation produces the notify outcome, an identical
second invocation is suppressed with no state change; after clearing the
respective throttle set the same combination notifies again; and a second,
different field combination with a digest not yet recorded notifies
independently.  Both the field check and the index check behave this way on
their respective throttle sets. -/
theorem warn_throttle_behavior :
    (∀ (hashFn : String → String) (meta : ModelMetadata) (conds : FilterQuery)
      (qf : List String) (c : Option String) (st : SafeQueryState),
      st.options.shouldWarn = true →
      st.options.checkField.warnAction = true →
      (st.options.shouldThrow = false ∨
        st.options.checkField.throwMessage = none) →
      getNonExistingFields qf meta.fields ≠ [] →
      throttleDigest hashFn qf ∉ st.warnedFieldQueries →
      ((checkField hashFn meta conds qf c st).1 =
          .warned ⟨meta.modelName, getNonExistingFields qf meta.fields, c, conds⟩
        ∧ checkField hashFn meta conds qf c (checkField hashFn meta conds qf c st).2 =
            (.ok, (checkField hashFn meta conds qf c st).2)
        ∧ (checkField hashFn meta conds qf c
            (clearWarnedFieldQueries (checkField hashFn meta conds qf c st).2)).1 =
            .warned ⟨meta.modelName, getNonExistingFields qf meta.fields, c, conds⟩
        ∧ ∀ (qf₂ : List String) (conds₂ : FilterQuery) (c₂ : Option String),
            getNonExistingFields qf₂ meta.fields ≠ [] →
            throttleDigest hashFn qf₂ ∉
              (checkField hashFn meta conds qf c st).2.warnedFieldQueries →
            (checkField hashFn meta conds₂ qf₂ c₂
              (checkField hashFn meta conds qf c st).2).1 =
              .warned ⟨meta.modelName, getNonExistingFields qf₂ meta.fields, c₂, conds₂⟩))
    ∧ (∀ (hashFn : String → String) (meta : ModelMetadata) (conds : FilterQuery)
      (qf : List String) (c : Option String) (st : SafeQueryState),
      st.options.shouldWarn = true →
      st.options.checkIndex.warnAction = true →
      (st.options.shouldThrow = false ∨
        st.options.checkIndex.throwMessage = none) →
      ¬ (meta.indices.length = 0 ∨ qf.length = 0) →
      isCoveredByIndex qf meta.indices
        (max st.options.checkIndex.minCoverage 0) = false →
      throttleDigest hashFn qf ∉ st.warnedIndexQueries →
      ((checkIndex hashFn meta conds qf c st).1 =
          .warned ⟨meta.modelName, qf, c, conds⟩
        ∧ checkIndex hashFn meta conds qf c (checkIndex hashFn meta conds qf c st).2 =
            (.ok, (checkIndex hashFn meta conds qf c st).2)
        ∧ (checkIndex hashFn meta conds qf c
            (clearWarnedIndexQueries (checkIndex hashFn meta conds qf c st).2)).1 =
            .warned ⟨meta.modelName, qf, c, conds⟩
        ∧ ∀ (qf₂ : List String) (conds₂ : FilterQuery) (c₂ : Option String),
            ¬ (meta.indices.length = 0 ∨ qf₂.length = 0) →
            isCoveredByIndex qf₂ meta.indices
              (max st.options.checkIndex.minCoverage 0) = false →
            throttleDigest hashFn qf₂ ∉
              (checkIndex hashFn meta conds qf c st).2.warnedIndexQueries →
            (checkIndex hashFn meta conds₂ qf₂ c₂
              (checkIndex hashFn meta conds qf c st).2).1 =
              .warned ⟨meta.modelName, qf₂, c₂, conds₂⟩)) := by
  constructor
  · intro hashFn meta conds qf c st hwarn haction hnothrow hviol hfresh
    have hchar := checkField_warn_char hashFn meta conds qf c st hwarn haction
      hnothrow hviol
    rw [if_neg hfresh] at hchar
    refine ⟨by rw [hchar], ?_, ?_, ?_⟩
    · rw [hchar]
      have hchar2 := checkField_warn_char hashFn meta conds qf c
        { st with warnedFieldQueries :=
            st.warnedFieldQueries ++ [throttleDigest hashFn qf] }
        hwarn haction hnothrow hviol
      rw [if_pos (by simp)] at hchar2
      exact hchar2
    · rw [hchar]
      have hchar3 := checkField_warn_char hashFn meta conds qf c
        (clearWarnedFieldQueries
          { st with warnedFieldQueries :=
              st.warnedFieldQueries ++ [throttleDigest hashFn qf] })
        hwarn haction hnothrow hviol
      rw [if_neg (by simp [clearWarnedFieldQueries])] at hchar3
      rw [hchar3]
    · intro qf₂ conds₂ c₂ hviol₂ hfresh₂
      rw [hchar] at hfresh₂ ⊢
      have hchar4 := checkField_warn_char hashFn meta conds₂ qf₂ c₂
        { st with warnedFieldQueries :=
            st.warnedFieldQueries ++ [throttleDigest hashFn qf] }
        hwarn haction hnothrow hviol₂
      rw [if_neg hfresh₂] at hchar4
      rw [hchar4]
  · intro hashFn meta conds qf c st hwarn haction hnothrow hguard hviol hfresh
    have hchar := checkIndex_warn_char hashFn meta conds qf c st hwarn haction
      hnothrow hguard hviol
    rw [if_neg hfresh] at hchar
    refine ⟨by rw [hchar], ?_, ?_, ?_⟩
    · rw [hchar]
      have hchar2 := checkIndex_warn_char hashFn meta conds qf c
        { st with warnedIndexQueries :=
            st.warnedIndexQueries ++ [throttleDigest hashFn qf] }
        hwarn haction hnothrow hguard hviol
      rw [if_pos (by simp)] at hchar2
      exact hchar2
    · rw [hchar]
      have hchar3 := checkIndex_warn_char hashFn meta conds qf c
        (clearWarnedIndexQueries
          { st with warnedIndexQueries :=
              st.warnedIndexQueries ++ [throttleDigest hashFn qf] })
        hwarn haction hnothrow hguard hviol
      rw [if_neg (by simp [clearWarnedIndexQueries])] at hchar3
      rw [hchar3]
    · intro qf₂ conds₂ c₂ hguard₂ hviol₂ hfresh₂
      rw [hchar] at hfresh₂ ⊢
      have hchar4 := checkIndex_warn_char hashFn meta conds₂ qf₂ c₂
        { st with warnedIndexQueries :=
            st.warnedIndexQueries ++ [throttleDigest hashFn qf] }
        hwarn haction hnothrow hguard₂ hviol₂
      rw [if_neg hfresh₂] at hchar4
      rw [hchar4]

theorem exIndexStateAfter :
    (checkIndex (fun s => s) exMetaI .nil ["b"] none exStWarn).2.warnedIndexQueries =
      [throttleDigest (fun s => s) ["b"]] := by
  have hchar := checkIndex_warn_char (fun s => s) exMetaI .nil ["b"] none
    exStWarn rfl rfl (Or.inl rfl) (by decide) isCovered_b_a_false
  rw [if_neg (by simp [exStWarn])] at hchar
  rw [hchar]
  rfl

theorem exIndexFresh2 :
    throttleDigest (fun s => s) ["y"] ∉
      (checkIndex (fun s => s) exMetaI .nil ["b"] none exStWarn).2.warnedIndexQueries := by
  rw [exIndexStateAfter]
  decide

theorem warn_throttle_behavior_witness :
    ((checkField (fun s => s) exMetaF .nil ["zz"] none exStWarn).1 =
        .warned ⟨"M", ["zz"], none, .nil⟩
      ∧ checkField (fun s => s) exMetaF .nil ["zz"] none
          (checkField (fun s => s) exMetaF .nil ["zz"] none exStWarn).2 =
          (.ok, (checkField (fun s => s) exMetaF .nil ["zz"] none exStWarn).2)
      ∧ (checkField (fun s => s) exMetaF .nil ["zz"] none
          (clearWarnedFieldQueries
            (checkField (fun s => s) exMetaF .nil ["zz"] none exStWarn).2)).1 =
          .warned ⟨"M", ["zz"], none, .nil⟩
      ∧ (checkField (fun s => s) exMetaF .nil ["yy"] none
          (checkField (fun s => s) exMetaF .nil ["zz"] none exStWarn).2).1 =
          .warned ⟨"M", ["yy"], none, .nil⟩)
    ∧ ((checkIndex (fun s => s) exMetaI .nil ["b"] none exStWarn).1 =
        .warned ⟨"M", ["b"], none, .nil⟩
      ∧ checkIndex (fun s => s) exMetaI .nil ["b"] none
          (checkIndex (fun s => s) exMetaI .nil ["b"] none exStWarn).2 =
          (.ok, (checkIndex (fun s => s) exMetaI .nil ["b"] none exStWarn).2)
      ∧ (checkIndex (fun s => s) exMetaI .nil ["b"] none
          (clearWarnedIndexQueries
            (checkIndex (fun s => s) exMetaI .nil ["b"] none exStWarn).2)).1 =
          .warned ⟨"M", ["b"], none, .nil⟩
      ∧ (checkIndex (fun s => s) exMetaI .nil ["y"] none
          (checkIndex (fun s => s) exMetaI .nil ["b"] none exStWarn).2).1 =
          .warned ⟨"M", ["y"], none, .nil⟩) := by
  constructor
  · obtain ⟨h1, h2, h3, h4⟩ := warn_throttle_behavior.1 (fun s => s) exMetaF
      .nil ["zz"] none exStWarn rfl rfl (Or.inl rfl) (by decide) (by simp [exStWarn])
    exact ⟨h1, h2, h3, h4 ["yy"] .nil none (by decide) (by decide)⟩
  · obtain ⟨h1, h2, h3, h4⟩ := warn_throttle_behavior.2 (fun s => s) exMetaI
      .nil ["b"] none exStWarn rfl rfl (Or.inl rfl) (by decide)
      isCovered_b_a_false (by simp [exStWarn])
    exact ⟨h1, h2, h3, h4 ["y"] .nil none (by decide) isCovered_y_a_false exIndexFresh2⟩

/-- C7: the throttle digest is a deterministic function of the extracted
field set alone — it sorts the field names, concatenates them, applies the
hash collaborator and keeps a fixed-length suffix — so any two permutations
of the same field sequence produce the same digest string; consequently two
violating queries with the same extracted field set but different violating
subsets share one digest, and the second is throttled by the record of the
first even though its violating subset differs. -/
theorem throttleDigest_of_field_set :
    (∀ (hashFn : String → String) (qf₁ qf₂ : List String), qf₁.Perm qf₂ →
      throttleDigest hashFn qf₁ = throttleDigest hashFn qf₂)
    ∧ (∀ (hashFn : String → String) (meta₁ meta₂ : ModelMetadata)
        (conds₁ conds₂ : FilterQuery) (c₁ c₂ : Option String)
        (qf₁ qf₂ : List String) (st : SafeQueryState),
        qf₁.Perm qf₂ →
        st.options.shouldWarn = true →
        st.options.checkField.warnAction = true →
        (st.options.shouldThrow = false ∨
          st.options.checkField.throwMessage = none) →
        getNonExistingFields qf₁ meta₁.fields ≠ [] →
        getNonExistingFields qf₂ meta₂.fields ≠ [] →
        throttleDigest hashFn qf₁ ∉ st.warnedFieldQueries →
        (checkField hashFn meta₂ conds₂ qf₂ c₂
          (checkField hashFn meta₁ conds₁ qf₁ c₁ st).2).1 = .ok) := by
  constructor
  · exact fun hashFn qf₁ qf₂ h => throttleDigest_perm hashFn qf₁ qf₂ h
  · intro hashFn meta₁ meta₂ conds₁ conds₂ c₁ c₂ qf₁ qf₂ st hperm hwarn haction
      hnothrow hv₁ hv₂ hfresh
    have hchar := checkField_warn_char hashFn meta₁ conds₁ qf₁ c₁ st hwarn
      haction hnothrow hv₁
    rw [if_neg hfresh] at hchar
    rw [hchar]
    have hmem : throttleDigest hashFn qf₂ ∈
        st.warnedFieldQueries ++ [throttleDigest hashFn qf₁] := by
      rw [throttleDigest_perm hashFn qf₂ qf₁ hperm.symm]
      simp
    have hchar2 := checkField_warn_char hashFn meta₂ conds₂ qf₂ c₂
      { st with warnedFieldQueries :=
          st.warnedFieldQueries ++ [throttleDigest hashFn qf₁] }
      hwarn haction hnothrow hv₂
    rw [if_pos hmem] at hchar2
    exact congrArg Prod.fst hchar2

theorem throttleDigest_of_field_set_witness :
    throttleDigest (fun s => s) ["b", "a"] = throttleDigest (fun s => s) ["a", "b"]
    ∧ (checkField (fun s => s) ⟨"M", ["b"], []⟩ .nil ["a", "b"] none
        (checkField (fun s => s) ⟨"M", ["a"], []⟩ .nil ["b", "a"] none
          exStWarn).2).1 = .ok :=
  ⟨throttleDigest_of_field_set.1 (fun s => s) ["b", "a"] ["a", "b"]
      (List.Perm.swap "a" "b" []),
   throttleDigest_of_field_set.2 (fun s => s) ⟨"M", ["a"], []⟩ ⟨"M", ["b"], []⟩
      .nil .nil none none ["b", "a"] ["a", "b"] exStWarn
      (List.Perm.swap "a" "b" []) rfl rfl (Or.inl rfl)
      (by decide) (by decide) (by simp [exStWarn])⟩

theorem lookupName_append_self (n : String)
    (cache : List (String × ModelMetadata)) (md : ModelMetadata)
    (h : lookupName n cache = none) :
    lookupName n (cache ++ [(n, md)]) = some md := by
  induction cache with
  | nil => simp [lookupName]
  | cons e rest ih =>
    obtain ⟨k, v⟩ := e
    by_cases hk : k = n
    · simp [lookupName, hk] at h
    · simp only [List.cons_append, lookupName, if_neg hk] at h ⊢
      exact ih h

theorem lookupName_mem (n : String) (cache : List (String × ModelMetadata))
    (md : ModelMetadata) (h : lookupName n cache = some md) :
    (n, md) ∈ cache := by
  induction cache with
  | nil => simp [lookupName] at h
  | cons e rest ih =>
    obtain ⟨k, v⟩ := e
    by_cases hk : k = n
    · subst hk
      simp [lookupName] at h
      subst h
      exact List.mem_cons_self _ _
    · simp only [lookupName, if_neg hk] at h
      exact List.mem_cons_of_mem _ (ih h)

/-- C8: `getMetadata` is a memoizing write-once-per-key cache: a cached entry
is returned with the cache unchanged; on a miss the entry is built from the
schema collaborator with the implicit `['_id']` index appended, stored and
returned; and a second call for the same collection name returns exactly the
entry stored by the first call, with the cache unchanged. -/
theorem getMetadata_memoizes (model : MongooseModel)
    (cache : List (String × ModelMetadata)) :
    (∀ md : ModelMetadata, lookupName model.modelName cache = some md →
      getMetadata model cache = (md, cache))
    ∧ (lookupName model.modelName cache = none →
      getMetadata model cache =
        (⟨model.modelName, model.treeKeys, model.schemaIndexes ++ [["_id"]]⟩,
         cache ++ [(model.modelName,
           ⟨model.modelName, model.treeKeys, model.schemaIndexes ++ [["_id"]]⟩)]))
    ∧ (∀ model₂ : MongooseModel, model₂.modelName = model.modelName →
      getMetadata model₂ (getMetadata model cache).2 =
        ((getMetadata model cache).1, (getMetadata model cache).2)) := by
  refine ⟨?_, ?_, ?_⟩
  · intro md h
    simp [getMetadata, h]
  · intro h
    simp [getMetadata, h]
  · intro model₂ hname
    cases hl : lookupName model.modelName cache with
    | some md => simp [getMetadata, hl, hname]
    | none =>
      simp only [getMetadata, hl, hname]
      rw [lookupName_append_self model.modelName cache _ hl]

theorem getMetadata_memoizes_witness :
    (getMetadata ⟨"User", ["_id", "name"], [["name"]]⟩
        [("User", ⟨"User", ["_id"], [["_id"]]⟩)] =
      (⟨"User", ["_id"], [["_id"]]⟩, [("User", ⟨"User", ["_id"], [["_id"]]⟩)]))
    ∧ (getMetadata ⟨"User", ["_id", "name"], [["name"]]⟩ [] =
      (⟨"User", ["_id", "name"], [["name"], ["_id"]]⟩,
       [("User", ⟨"User", ["_id", "name"], [["name"], ["_id"]]⟩)]))
    ∧ (getMetadata ⟨"User", ["_id", "name"], [["name"]]⟩
        (getMetadata ⟨"User", ["_id", "name"], [["name"]]⟩ []).2 =
      ((getMetadata ⟨"User", ["_id", "name"], [["name"]]⟩ []).1,
       (getMetadata ⟨"User", ["_id", "name"], [["name"]]⟩ []).2)) :=
  ⟨(getMetadata_memoizes ⟨"User", ["_id", "name"], [["name"]]⟩
      [("User", ⟨"User", ["_id"], [["_id"]]⟩)]).1 ⟨"User", ["_id"], [["_id"]]⟩ rfl,
   (getMetadata_memoizes ⟨"User", ["_id", "name"], [["name"]]⟩ []).2.1 rfl,
   (getMetadata_memoizes ⟨"User", ["_id", "name"], [["name"]]⟩ []).2.2
      ⟨"User", ["_id", "name"], [["name"]]⟩ rfl⟩

/-- Metadata entries carry the implicit primary-key index: a non-empty index
list ending in `['_id']`. -/
def hasIdIndexLast (md : ModelMetadata) : Prop :=
  md.indices ≠ [] ∧ md.indices.getLast? = some ["_id"]

/-- Every entry stored in the metadata cache satisfies `hasIdIndexLast`. -/
def cacheIdInvariant (cache : List (String × ModelMetadata)) : Prop :=
  ∀ e ∈ cache, hasIdIndexLast e.2

/-- C9: metadata obtained through the cache always has a non-empty index list
whose last element is `['_id']` (the invariant is established on a miss and
preserved by the cache), so `checkIndex`'s no-op guard over such metadata is
equivalent to the extracted field set being empty — it can never fire because
the collection has no indexes. -/
theorem getMetadata_id_index_invariant (model : MongooseModel)
    (cache : List (String × ModelMetadata)) (h : cacheIdInvariant cache) :
    hasIdIndexLast (getMetadata model cache).1
    ∧ cacheIdInvariant (getMetadata model cache).2
    ∧ ∀ qf : List String,
        (((getMetadata model cache).1.indices.length = 0 ∨ qf.length = 0) ↔
          qf = []) := by
  have hmain : hasIdIndexLast (getMetadata model cache).1 ∧
      cacheIdInvariant (getMetadata model cache).2 := by
    cases hl : lookupName model.modelName cache with
    | some md =>
      have hmd : hasIdIndexLast md := h _ (lookupName_mem _ _ _ hl)
      constructor
      · simpa [getMetadata, hl] using hmd
      · simpa [getMetadata, hl] using h
    | none =>
      have hnew : hasIdIndexLast
          ⟨model.modelName, model.treeKeys, model.schemaIndexes ++ [["_id"]]⟩ := by
        constructor
        · simp [hasIdIndexLast]
        · simp [List.getLast?_concat]
      constructor
      · simpa [getMetadata, hl] using hnew
      · simp only [getMetadata, hl, cacheIdInvariant]
        intro e he
        rcases List.mem_append.mp he with h1 | h2
        · exact h e h1
        · rcases List.mem_singleton.mp h2 with rfl
          exact hnew
  refine ⟨hmain.1, hmain.2, ?_⟩
  intro qf
  have hne : (getMetadata model cache).1.indices.length ≠ 0 := by
    simpa [List.length_eq_zero] using hmain.1.1
  simp [hne, List.length_eq_zero]

theorem getMetadata_id_index_invariant_witness :
    hasIdIndexLast (getMetadata ⟨"User", ["_id", "name"], [["name"]]⟩ []).1
    ∧ (((getMetadata ⟨"User", ["_id", "name"], [["name"]]⟩ []).1.indices.length = 0 ∨
        (["name"] : List String).length = 0) ↔ (["name"] : List String) = []) :=
  ⟨(getMetadata_id_index_invariant ⟨"User", ["_id", "name"], [["name"]]⟩ []
      (by simp [cacheIdInvariant])).1,
   (getMetadata_id_index_invariant ⟨"User", ["_id", "name"], [["name"]]⟩ []
      (by simp [cacheIdInvariant])).2.2 ["name"]⟩
